import Mathlib

/-!
# 3D spectrogram surface example: data feed, camera replay loop and UI toggles

A shallow embedding of the glue code of `src/index.js`.  The charting library and the
data generator are external; what the script does with them is modelled as explicit
state passing:

* numeric sample values and the camera frame counter are exact rationals, the counter
  `samplesAmount` is a natural number (the values a JavaScript number takes here, short
  of the loss of integer precision at 2^53);
* every call the script issues to `surfaceGridSeries.addRow`, to
  `chart3D.setCameraLocation` and to a checkbox's `setOn` is appended to a log, so that
  "which calls were issued" is a property of the state;
* the callbacks the script registers (stream `forEach`, checkbox `onSwitch`,
  `onBackgroundMouseDrag`, `requestAnimationFrame`, the resolution of `fetch`) are the
  events of a step function.
-/

namespace Spectrogram

/-! ## Constants -/

/-- Length of a single data sample (`const dataSampleSize = 60`). -/
def dataSampleSize : Nat := 60

/-- Length of data history (`const dataHistoryLength = 50`). -/
def dataHistoryLength : Nat := 50

/-! ## The checkbox of the charting library -/

/-- The part of a library `CheckBox` the script reads and writes: its on/off value
(`getOn`), its label (`setText`), and the log of the `setOn` calls the script issued. -/
structure CheckBox where
  isOn : Bool
  text : String
  setOnCalls : List Bool
  deriving DecidableEq, Repr

namespace CheckBox

/-- Library call `getOn()`. -/
def getOn (cb : CheckBox) : Bool := cb.isOn

/-- Library call `setText( text )`. -/
def setText (t : String) (cb : CheckBox) : CheckBox := { cb with text := t }

/-- Library call `setOn( state )`, recorded in the call log. -/
def setOn (state : Bool) (cb : CheckBox) : CheckBox :=
  { cb with isOn := state, setOnCalls := cb.setOnCalls ++ [state] }

/-- A checkbox as `group.addElement( UIElementBuilders.CheckBox )` returns it: switched
off, without a label, no call issued yet. -/
def fresh : CheckBox := { isOn := false, text := "", setOnCalls := [] }

end CheckBox

/-- The body shared by the two toggle handlers: `setText( state ? onLabel : offLabel )`,
then `setOn( state )` only if `getOn() !== state`.  Should the library notify the
`onSwitch` subscriber from within `setOn`, the handler is re-entered with
`getOn() === state`: it repeats the same `setText` and issues no further `setOn`, so the
checkbox and the log of `setOn` calls end up as computed here. -/
def handleToggled (onLabel offLabel : String) (state : Bool) (cb : CheckBox) : CheckBox :=
  let cb := cb.setText (if state then onLabel else offLabel)
  if cb.getOn != state then cb.setOn state else cb

/-! ## Data of the stream and of the camera replay -/

/-- One recorded call `surfaceGridSeries.addRow( offset, property, rows )`. -/
structure AddRowCall where
  offset : Nat
  property : String
  rows : List (List ℚ)
  deriving DecidableEq, Repr

/-- A camera position record. -/
structure CameraLocation where
  x : ℚ
  y : ℚ
  z : ℚ
  deriving DecidableEq, Repr

/-- One record of the `frames` list of the camera animation file. -/
structure Frame where
  cameraLocation : CameraLocation
  deriving DecidableEq, Repr

/-- A non-null value parsed from the camera animation file: an object whose `frames`
field is a list, or is missing (`none`). -/
structure CameraAnimationData where
  frames : Option (List Frame)
  deriving DecidableEq, Repr

/-- The faults the camera loop can raise. -/
inductive JsError where
  | lengthOfUndefined
  | destructureUndefined
  deriving DecidableEq, Repr

/-- Where the asynchronous camera block stands. -/
inductive CameraLoop where
  /-- `fetch` has not resolved yet: nothing is scheduled. -/
  | pending
  /-- The guard `! cameraAnimationData` returned after logging "No Camera animation data.". -/
  | noData
  /-- `nextFrame` is scheduled for every display refresh; `frame` is its counter. -/
  | running (data : CameraAnimationData) (frame : ℚ)
  /-- `nextFrame` threw before re-arming `requestAnimationFrame`. -/
  | failed (err : JsError)
  deriving DecidableEq, Repr

/-- The mutable state the script owns or drives. -/
structure AppState where
  toggleStreamingCheckBox : CheckBox
  cameraAnimationEnabledCheckbox : CheckBox
  samplesAmount : Nat
  addRowCalls : List AddRowCall
  cameraLoop : CameraLoop
  setCameraLocationCalls : List CameraLocation
  deriving DecidableEq, Repr

/-! ## Data feed adapter -/

/-- The stream's map stage: `sample => sample.map( y => y * 80 )`. -/
def scaleSample (sample : List ℚ) : List ℚ := sample.map (fun y => y * 80)

/-- The stream's forEach stage, applied to the batch the map stage hands over. -/
def forEachHandler (sample : List ℚ) (s : AppState) : AppState :=
  let infiniteStreamingDataEnabled := s.toggleStreamingCheckBox.getOn
  let addSample := infiniteStreamingDataEnabled || decide (s.samplesAmount < dataHistoryLength)
  if addSample then
    { s with
      addRowCalls := s.addRowCalls ++ [{ offset := 1, property := "y", rows := [sample] }]
      samplesAmount := s.samplesAmount + 1 }
  else s

/-- One stream tick: the raw batch goes through the map stage, then the forEach stage. -/
def streamTick (raw : List ℚ) (s : AppState) : AppState :=
  forEachHandler (scaleSample raw) s

/-! ## UI control panel -/

/-- The handler `handleStreamingToggled( state )`. -/
def handleStreamingToggled (state : Bool) (s : AppState) : AppState :=
  let cb := handleToggled "Disable infinite streaming data" "Enable infinite streaming data"
    state s.toggleStreamingCheckBox
  { s with toggleStreamingCheckBox := cb }

/-- The handler `handleCameraAnimationToggled( state )`. -/
def handleCameraAnimationToggled (state : Bool) (s : AppState) : AppState :=
  let cb := handleToggled "Disable camera animation" "Enable camera animation"
    state s.cameraAnimationEnabledCheckbox
  { s with cameraAnimationEnabledCheckbox := cb }

/-- The user switches the streaming checkbox: the library stores the new value and
notifies the `onSwitch` subscriber, `( _, state ) => handleStreamingToggled( state )`. -/
def streamingSwitched (state : Bool) (s : AppState) : AppState :=
  handleStreamingToggled state
    { s with toggleStreamingCheckBox := { s.toggleStreamingCheckBox with isOn := state } }

/-- The user switches the camera checkbox: the library stores the new value and
notifies the `onSwitch` subscriber, `(_, state) => handleCameraAnimationToggled( state )`. -/
def cameraSwitched (state : Bool) (s : AppState) : AppState :=
  handleCameraAnimationToggled state
    { s with cameraAnimationEnabledCheckbox := { s.cameraAnimationEnabledCheckbox with isOn := state } }

/-- The subscriber of `chart3D.onBackgroundMouseDrag`. -/
def onBackgroundMouseDrag (s : AppState) : AppState :=
  handleCameraAnimationToggled false s

/-! ## Camera replay loop -/

/-- The call `Math.floor( x )`. -/
def mathFloor (x : ℚ) : ℤ := ⌊x⌋

/-- The remainder operator `a % n` with an array length on the right: `NaN` (`none`)
when the length is zero, else the remainder that takes the sign of the dividend. -/
def jsRem (a : ℤ) (n : Nat) : Option ℤ :=
  if n = 0 then none else some (Int.tmod a n)

/-- An array read `frames[i]`: `undefined` (`none`) unless `i` is an index of the array. -/
def frameAt (frames : List Frame) (i : Option ℤ) : Option Frame :=
  match i with
  | some (Int.ofNat j) => frames[j]?
  | _ => none

/-- The index expression `Math.floor(frame) % cameraAnimationData.frames.length`. -/
def frameIndex (frames : List Frame) (frame : ℚ) : Option ℤ :=
  jsRem (mathFloor frame) frames.length

/-- The body of `nextFrame` before it re-arms `requestAnimationFrame`: the new state and
frame counter, or the fault raised. -/
def nextFrame (data : CameraAnimationData) (frame : ℚ) (s : AppState) :
    Except JsError (AppState × ℚ) :=
  if s.cameraAnimationEnabledCheckbox.getOn then
    match data.frames with
    | none => .error .lengthOfUndefined
    | some frames =>
      match frameAt frames (frameIndex frames frame) with
      | none => .error .destructureUndefined
      | some f =>
        .ok ({ s with setCameraLocationCalls := s.setCameraLocationCalls ++ [f.cameraLocation] },
             frame + 4)
  else .ok (s, frame)

/-- The continuation of the `await`: the guard on the fetched value (`none` is a value
for which `! cameraAnimationData` holds), then `let frame = 0` and the first
`requestAnimationFrame( nextFrame )`. -/
def fetchResolved (cameraAnimationData : Option CameraAnimationData) (s : AppState) : AppState :=
  match s.cameraLoop with
  | .pending =>
    match cameraAnimationData with
    | none => { s with cameraLoop := .noData }
    | some data => { s with cameraLoop := .running data 0 }
  | _ => s

/-- One display refresh: the scheduled `nextFrame`, if any, runs once. -/
def animationFrame (s : AppState) : AppState :=
  match s.cameraLoop with
  | .running data frame =>
    match nextFrame data frame s with
    | .ok (s1, frame1) => { s1 with cameraLoop := .running data frame1 }
    | .error err => { s with cameraLoop := .failed err }
  | _ => s

/-! ## The event loop -/

/-- The callbacks the environment can invoke. -/
inductive Event where
  | tick (raw : List ℚ)
  | streamingSwitch (state : Bool)
  | cameraSwitch (state : Bool)
  | backgroundMouseDrag
  | fetched (cameraAnimationData : Option CameraAnimationData)
  | refresh
  deriving DecidableEq, Repr

/-- The effect of one callback. -/
def step (e : Event) (s : AppState) : AppState :=
  match e with
  | .tick raw => streamTick raw s
  | .streamingSwitch state => streamingSwitched state s
  | .cameraSwitch state => cameraSwitched state s
  | .backgroundMouseDrag => onBackgroundMouseDrag s
  | .fetched v => fetchResolved v s
  | .refresh => animationFrame s

/-- The effect of a sequence of callbacks, in order. -/
def run (evs : List Event) (s : AppState) : AppState := evs.foldl (fun s e => step e s) s

/-- The state once the script has run to its end: `samplesAmount = 0`, no call issued to
the surface or the camera, the fetch pending, and both checkboxes created and passed
through `handleStreamingToggled( true )` and `handleCameraAnimationToggled( true )`. -/
def init : AppState :=
  handleCameraAnimationToggled true
    (handleStreamingToggled true
      { toggleStreamingCheckBox := CheckBox.fresh
        cameraAnimationEnabledCheckbox := CheckBox.fresh
        samplesAmount := 0
        addRowCalls := []
        cameraLoop := .pending
        setCameraLocationCalls := [] })

/-- The raw batches of the stream ticks of a run, in arrival order. -/
def tickSamples : List Event → List (List ℚ)
  | [] => []
  | .tick raw :: evs => raw :: tickSamples evs
  | _ :: evs => tickSamples evs

/-- The number of display refreshes of a run. -/
def refreshCount : List Event → Nat
  | [] => 0
  | .refresh :: evs => refreshCount evs + 1
  | _ :: evs => refreshCount evs

/-- Whether the streaming checkbox reads `b` at every stream tick of the run from `s`. -/
def streamingAtTicks (b : Bool) : List Event → AppState → Bool
  | [], _ => true
  | .tick raw :: evs, s =>
    (s.toggleStreamingCheckBox.getOn == b) && streamingAtTicks b evs (step (.tick raw) s)
  | e :: evs, s => streamingAtTicks b evs (step e s)

/-- Whether the camera checkbox is on at every display refresh of the run from `s`. -/
def cameraOnAtRefreshes : List Event → AppState → Bool
  | [], _ => true
  | .refresh :: evs, s =>
    s.cameraAnimationEnabledCheckbox.getOn && cameraOnAtRefreshes evs (step .refresh s)
  | e :: evs, s => cameraOnAtRefreshes evs (step e s)

/-- Whether a callback switches the camera checkbox on. -/
def switchesCameraOn : Event → Bool
  | .cameraSwitch true => true
  | _ => false

/-- A camera animation file whose `frames` list is empty. -/
def emptyFrames : CameraAnimationData := { frames := some [] }

/-- A camera animation file without a `frames` field. -/
def missingFrames : CameraAnimationData := { frames := none }

/-- The call the forEach stage issues for a raw batch. -/
def addRowOf (raw : List ℚ) : AddRowCall :=
  { offset := 1, property := "y", rows := [scaleSample raw] }

/-! ## Concrete states and runs -/

/-- A state in which the streaming checkbox is off and the history is full. -/
def cappedState : AppState :=
  { init with
    samplesAmount := 50
    toggleStreamingCheckBox :=
      { isOn := false, text := "Enable infinite streaming data", setOnCalls := [true, false] } }

/-- A run in which the user switches streaming off at once and 51 batches arrive. -/
def offRun : List Event :=
  .streamingSwitch false :: List.replicate 51 (.tick [1 / 2, 1])

/-- A run of 60 batches with streaming left on, as the script starts it. -/
def onRun : List Event := List.replicate 60 (.tick [1 / 2, 1])

/-- A camera animation file with three frames. -/
def threeFrames : CameraAnimationData :=
  { frames := some
      [ { cameraLocation := { x := 1, y := 0, z := 0 } },
        { cameraLocation := { x := 0, y := 1, z := 0 } },
        { cameraLocation := { x := 0, y := 0, z := 1 } } ] }

/-! ## Data feed adapter: scaling and acceptance -/

/-- C1. The batch the map stage hands to the forEach stage has the length of the incoming
batch, its element at every index is 80 times the incoming element at that index (and
there is an element exactly where the incoming batch has one), and this scaled batch
is what the forEach stage receives on a stream tick. -/
theorem scaleSample_spec (raw : List ℚ) :
    (scaleSample raw).length = raw.length ∧
    (∀ i : Nat, (scaleSample raw)[i]? = (raw[i]?).map (fun y => 80 * y)) ∧
    (∀ s : AppState, streamTick raw s = forEachHandler (scaleSample raw) s) := by
  refine ⟨by simp [scaleSample], ?_, fun _ => rfl⟩
  intro i
  simp only [scaleSample, List.getElem?_map]
  cases raw[i]? <;> simp [mul_comm]

/-- An accepted batch: one `addRow( 1, 'y', [sample] )` call and the counter plus one. -/
theorem forEachHandler_accept (sample : List ℚ) (s : AppState)
    (h : s.toggleStreamingCheckBox.getOn = true ∨ s.samplesAmount < 50) :
    forEachHandler sample s =
      { s with
        addRowCalls := s.addRowCalls ++ [{ offset := 1, property := "y", rows := [sample] }]
        samplesAmount := s.samplesAmount + 1 } := by
  have hb : (s.toggleStreamingCheckBox.getOn || decide (s.samplesAmount < dataHistoryLength))
      = true := by
    simpa [dataHistoryLength] using h
  simp [forEachHandler, hb]

/-- A rejected batch: the state is unchanged. -/
theorem forEachHandler_reject (sample : List ℚ) (s : AppState)
    (h : ¬ (s.toggleStreamingCheckBox.getOn = true ∨ s.samplesAmount < 50)) :
    forEachHandler sample s = s := by
  have hb : (s.toggleStreamingCheckBox.getOn || decide (s.samplesAmount < dataHistoryLength))
      = false := by
    simpa [dataHistoryLength] using h
  simp [forEachHandler, hb]

/-- C2. On a stream tick with streaming-checkbox value `f` and counter `c`, the forEach
handler issues an `addRow` call if and only if `f` is true or `c < 50`; when it does, the
call is the single call `addRow( 1, 'y', [sample] )` and the counter becomes `c + 1`
(nothing else changes); when it does not, the state is unchanged. -/
theorem forEachHandler_spec (sample : List ℚ) (s : AppState) :
    ((forEachHandler sample s).addRowCalls ≠ s.addRowCalls ↔
      (s.toggleStreamingCheckBox.getOn = true ∨ s.samplesAmount < 50)) ∧
    ((s.toggleStreamingCheckBox.getOn = true ∨ s.samplesAmount < 50) →
      forEachHandler sample s =
        { s with
          addRowCalls := s.addRowCalls ++ [{ offset := 1, property := "y", rows := [sample] }]
          samplesAmount := s.samplesAmount + 1 }) ∧
    (¬ (s.toggleStreamingCheckBox.getOn = true ∨ s.samplesAmount < 50) →
      forEachHandler sample s = s) := by
  refine ⟨?_, forEachHandler_accept sample s, forEachHandler_reject sample s⟩
  by_cases h : s.toggleStreamingCheckBox.getOn = true ∨ s.samplesAmount < 50
  · simp [forEachHandler_accept sample s h, h]
  · simp [forEachHandler_reject sample s h, h]

/-- C2 at concrete states: a batch is accepted while streaming is on, and dropped when
streaming is off and the counter has reached 50. -/
theorem forEachHandler_spec_witness :
    (init.toggleStreamingCheckBox.getOn = true ∨ init.samplesAmount < 50) ∧
    forEachHandler [80, 40] init =
      { init with
        addRowCalls := init.addRowCalls ++ [{ offset := 1, property := "y", rows := [[80, 40]] }]
        samplesAmount := init.samplesAmount + 1 } ∧
    ¬ (cappedState.toggleStreamingCheckBox.getOn = true ∨ cappedState.samplesAmount < 50) ∧
    forEachHandler [80, 40] cappedState = cappedState :=
  ⟨Or.inl rfl, (forEachHandler_spec [80, 40] init).2.1 (Or.inl rfl),
    by decide, (forEachHandler_spec [80, 40] cappedState).2.2 (by decide)⟩

/-! ## UI control panel: the two toggle handlers -/

/-- The shared handler body leaves the checkbox at `state` with the matching label,
calls `setOn` exactly when the checkbox was out of sync, and is idempotent. -/
theorem handleToggled_sync (onLabel offLabel : String) (state : Bool) (cb : CheckBox) :
    (handleToggled onLabel offLabel state cb).isOn = state ∧
    (handleToggled onLabel offLabel state cb).text = (if state then onLabel else offLabel) ∧
    (handleToggled onLabel offLabel state cb).setOnCalls =
      (if cb.isOn = state then cb.setOnCalls else cb.setOnCalls ++ [state]) ∧
    handleToggled onLabel offLabel state (handleToggled onLabel offLabel state cb) =
      handleToggled onLabel offLabel state cb := by
  cases state <;> cases cb with
  | mk isOn text calls =>
    cases isOn <;>
      simp [handleToggled, CheckBox.setText, CheckBox.getOn, CheckBox.setOn]

/-- C9. For both toggle handlers, every boolean `state` and every prior state: afterwards
the checkbox's on-value is `state` and its label is the 'Disable ...' text for `true`, the
'Enable ...' text for `false`; the log of `setOn` calls grows by one call `setOn( state )`
when the prior on-value differed from `state` and is unchanged when it did not; running
the handler a second time with the same `state` changes nothing and issues no `setOn`. -/
theorem toggleHandlers_sync (state : Bool) (s : AppState) :
    ((handleStreamingToggled state s).toggleStreamingCheckBox.isOn = state ∧
      (handleStreamingToggled state s).toggleStreamingCheckBox.text =
        (if state then "Disable infinite streaming data" else "Enable infinite streaming data") ∧
      (handleStreamingToggled state s).toggleStreamingCheckBox.setOnCalls =
        (if s.toggleStreamingCheckBox.isOn = state then s.toggleStreamingCheckBox.setOnCalls
         else s.toggleStreamingCheckBox.setOnCalls ++ [state]) ∧
      handleStreamingToggled state (handleStreamingToggled state s) =
        handleStreamingToggled state s ∧
      (handleStreamingToggled state (handleStreamingToggled state s)).toggleStreamingCheckBox.setOnCalls
        = (handleStreamingToggled state s).toggleStreamingCheckBox.setOnCalls) ∧
    ((handleCameraAnimationToggled state s).cameraAnimationEnabledCheckbox.isOn = state ∧
      (handleCameraAnimationToggled state s).cameraAnimationEnabledCheckbox.text =
        (if state then "Disable camera animation" else "Enable camera animation") ∧
      (handleCameraAnimationToggled state s).cameraAnimationEnabledCheckbox.setOnCalls =
        (if s.cameraAnimationEnabledCheckbox.isOn = state
         then s.cameraAnimationEnabledCheckbox.setOnCalls
         else s.cameraAnimationEnabledCheckbox.setOnCalls ++ [state]) ∧
      handleCameraAnimationToggled state (handleCameraAnimationToggled state s) =
        handleCameraAnimationToggled state s ∧
      (handleCameraAnimationToggled state
          (handleCameraAnimationToggled state s)).cameraAnimationEnabledCheckbox.setOnCalls
        = (handleCameraAnimationToggled state s).cameraAnimationEnabledCheckbox.setOnCalls) := by
  have h1 := handleToggled_sync "Disable infinite streaming data"
    "Enable infinite streaming data" state s.toggleStreamingCheckBox
  have h2 := handleToggled_sync "Disable camera animation" "Enable camera animation" state
    s.cameraAnimationEnabledCheckbox
  have e1 : handleStreamingToggled state (handleStreamingToggled state s) =
      handleStreamingToggled state s := by
    simp only [handleStreamingToggled, h1.2.2.2]
  have e2 : handleCameraAnimationToggled state (handleCameraAnimationToggled state s) =
      handleCameraAnimationToggled state s := by
    simp only [handleCameraAnimationToggled, h2.2.2.2]
  exact ⟨⟨h1.1, h1.2.1, h1.2.2.1, e1, by rw [e1]⟩, ⟨h2.1, h2.2.1, h2.2.2.1, e2, by rw [e2]⟩⟩

/-- C7. From every state whose streaming checkbox is off with label 'Enable infinite
streaming data', whatever the history counter: switching it on — by the user through
`onSwitch`, or by a direct call `handleStreamingToggled( true )` — leaves the checkbox on
with the label 'Disable infinite streaming data', which differs from the label before,
and the batch of the very next stream tick is forwarded to `addRow`, while the same batch
arriving before the switch with a counter of 50 or more would have been dropped. -/
theorem streaming_switch_on_lifts_cap (s : AppState) (raw : List ℚ)
    (hoff : s.toggleStreamingCheckBox.getOn = false)
    (hlabel : s.toggleStreamingCheckBox.text = "Enable infinite streaming data") :
    (50 ≤ s.samplesAmount → streamTick raw s = s) ∧
    (∀ s1 : AppState, s1 = streamingSwitched true s ∨ s1 = handleStreamingToggled true s →
      s1.toggleStreamingCheckBox.getOn = true ∧
      s1.toggleStreamingCheckBox.text = "Disable infinite streaming data" ∧
      s1.toggleStreamingCheckBox.text ≠ s.toggleStreamingCheckBox.text ∧
      s1.samplesAmount = s.samplesAmount ∧
      (streamTick raw s1).addRowCalls = s1.addRowCalls ++ [addRowOf raw] ∧
      (streamTick raw s1).samplesAmount = s.samplesAmount + 1) := by
  have key : ∀ s1 : AppState, s1.toggleStreamingCheckBox.isOn = true →
      (streamTick raw s1).addRowCalls = s1.addRowCalls ++ [addRowOf raw] ∧
      (streamTick raw s1).samplesAmount = s1.samplesAmount + 1 := by
    intro s1 h1
    simp [streamTick, forEachHandler, CheckBox.getOn, h1, addRowOf]
  refine ⟨fun h50 => forEachHandler_reject (scaleSample raw) s (by simp [hoff]; omega), ?_⟩
  intro s1 hs1
  have hon : s1.toggleStreamingCheckBox.isOn = true := by
    rcases hs1 with h | h <;> subst h
    · exact (handleToggled_sync _ _ true _).1
    · exact (handleToggled_sync _ _ true _).1
  have htext : s1.toggleStreamingCheckBox.text = "Disable infinite streaming data" := by
    rcases hs1 with h | h <;> subst h
    · exact (handleToggled_sync _ _ true _).2.1
    · exact (handleToggled_sync _ _ true _).2.1
  have hc : s1.samplesAmount = s.samplesAmount := by
    rcases hs1 with h | h <;> subst h <;> rfl
  refine ⟨hon, htext, ?_, hc, (key s1 hon).1, ?_⟩
  · rw [htext, hlabel]; decide
  · rw [(key s1 hon).2, hc]

/-- C7 at the state with a full history and the checkbox off: the user switches the
checkbox on and the next batch is forwarded. -/
theorem streaming_switch_on_lifts_cap_witness :
    cappedState.samplesAmount = 50 ∧
    (streamingSwitched true cappedState).toggleStreamingCheckBox.text =
      "Disable infinite streaming data" ∧
    (streamTick [1, 0] (streamingSwitched true cappedState)).samplesAmount = 51 ∧
    (streamTick [1, 0] (streamingSwitched true cappedState)).addRowCalls =
      (streamingSwitched true cappedState).addRowCalls ++ [addRowOf [1, 0]] :=
  have h := (streaming_switch_on_lifts_cap cappedState [1, 0] rfl rfl).2
    (streamingSwitched true cappedState) (Or.inl rfl)
  ⟨rfl, h.2.1, h.2.2.2.2.2, h.2.2.2.2.1⟩

/-! ## Runs of the event loop: what reaches the surface -/

theorem run_nil (s : AppState) : run [] s = s := rfl

theorem run_cons (e : Event) (evs : List Event) (s : AppState) :
    run (e :: evs) s = run evs (step e s) := rfl

/-- A display refresh touches neither checkbox, nor the counter, nor the surface. -/
theorem animationFrame_frame (s : AppState) :
    (animationFrame s).toggleStreamingCheckBox = s.toggleStreamingCheckBox ∧
    (animationFrame s).cameraAnimationEnabledCheckbox = s.cameraAnimationEnabledCheckbox ∧
    (animationFrame s).samplesAmount = s.samplesAmount ∧
    (animationFrame s).addRowCalls = s.addRowCalls := by
  unfold animationFrame
  cases hl : s.cameraLoop with
  | running data frame =>
    simp only
    unfold nextFrame
    cases hon : s.cameraAnimationEnabledCheckbox.getOn with
    | false => simp
    | true =>
      cases hf : data.frames with
      | none => simp
      | some frames =>
        cases hi : frameAt frames (frameIndex frames frame) with
        | none => simp [hi]
        | some f => simp [hi]
  | pending => simp
  | noData => simp
  | failed err => simp

/-- The resolution of the fetch touches neither checkbox, nor the counter, nor the surface. -/
theorem fetchResolved_frame (v : Option CameraAnimationData) (s : AppState) :
    (fetchResolved v s).toggleStreamingCheckBox = s.toggleStreamingCheckBox ∧
    (fetchResolved v s).cameraAnimationEnabledCheckbox = s.cameraAnimationEnabledCheckbox ∧
    (fetchResolved v s).samplesAmount = s.samplesAmount ∧
    (fetchResolved v s).addRowCalls = s.addRowCalls ∧
    (fetchResolved v s).setCameraLocationCalls = s.setCameraLocationCalls := by
  unfold fetchResolved
  cases s.cameraLoop <;> cases v <;> simp

/-- Only a stream tick changes the counter and the log of `addRow` calls. -/
theorem step_stream_frame (e : Event) (s : AppState) (h : ∀ raw, e ≠ .tick raw) :
    (step e s).samplesAmount = s.samplesAmount ∧ (step e s).addRowCalls = s.addRowCalls := by
  cases e with
  | tick raw => exact absurd rfl (h raw)
  | streamingSwitch state => exact ⟨rfl, rfl⟩
  | cameraSwitch state => exact ⟨rfl, rfl⟩
  | backgroundMouseDrag => exact ⟨rfl, rfl⟩
  | fetched v => exact ⟨(fetchResolved_frame v s).2.2.1, (fetchResolved_frame v s).2.2.2.1⟩
  | refresh => exact ⟨(animationFrame_frame s).2.2.1, (animationFrame_frame s).2.2.2⟩

/-- A stream tick leaves both checkboxes and the camera as they are. -/
theorem streamTick_frame (raw : List ℚ) (s : AppState) :
    (streamTick raw s).toggleStreamingCheckBox = s.toggleStreamingCheckBox ∧
    (streamTick raw s).cameraAnimationEnabledCheckbox = s.cameraAnimationEnabledCheckbox ∧
    (streamTick raw s).cameraLoop = s.cameraLoop ∧
    (streamTick raw s).setCameraLocationCalls = s.setCameraLocationCalls := by
  cases hb : (s.toggleStreamingCheckBox.getOn || decide (s.samplesAmount < dataHistoryLength)) <;>
    simp [streamTick, forEachHandler, hb]

/-- A tick with the streaming checkbox on: the batch is appended, the counter grows. -/
theorem streamTick_on (raw : List ℚ) (s : AppState)
    (h : s.toggleStreamingCheckBox.getOn = true) :
    (streamTick raw s).addRowCalls = s.addRowCalls ++ [addRowOf raw] ∧
    (streamTick raw s).samplesAmount = s.samplesAmount + 1 := by
  unfold streamTick
  rw [forEachHandler_accept _ _ (Or.inl h)]
  exact ⟨rfl, rfl⟩

/-- A tick with the streaming checkbox off: the batch is appended while the counter is
below 50, and dropped from then on. -/
theorem streamTick_off (raw : List ℚ) (s : AppState)
    (h : s.toggleStreamingCheckBox.getOn = false) :
    (s.samplesAmount < 50 →
      (streamTick raw s).addRowCalls = s.addRowCalls ++ [addRowOf raw] ∧
      (streamTick raw s).samplesAmount = s.samplesAmount + 1) ∧
    (50 ≤ s.samplesAmount → streamTick raw s = s) := by
  unfold streamTick
  constructor
  · intro hc
    rw [forEachHandler_accept _ _ (Or.inr hc)]
    exact ⟨rfl, rfl⟩
  · intro hc
    exact forEachHandler_reject _ _ (by simp [h]; omega)

/-- With the streaming checkbox on at every tick of a run, every batch of the run is
appended to the `addRow` log, in arrival order. -/
theorem run_streaming_on (evs : List Event) :
    ∀ s : AppState, streamingAtTicks true evs s = true →
      (run evs s).addRowCalls = s.addRowCalls ++ (tickSamples evs).map addRowOf ∧
      (run evs s).samplesAmount = s.samplesAmount + (tickSamples evs).length := by
  induction evs with
  | nil => intro s _; simp [run_nil, tickSamples]
  | cons e evs ih =>
    intro s h
    rw [run_cons]
    cases e with
    | tick raw =>
      simp only [streamingAtTicks, Bool.and_eq_true, beq_iff_eq] at h
      obtain ⟨h1, h2⟩ := ih _ h.2
      obtain ⟨t1, t2⟩ := streamTick_on raw s h.1
      simp only [step] at h1 h2 ⊢
      rw [h1, h2, t1, t2]
      simp [tickSamples]; omega
    | streamingSwitch state =>
      obtain ⟨h1, h2⟩ := ih _ (by simpa [streamingAtTicks] using h)
      obtain ⟨f1, f2⟩ := step_stream_frame (.streamingSwitch state) s (by simp)
      rw [h1, h2, f1, f2]; simp [tickSamples]
    | cameraSwitch state =>
      obtain ⟨h1, h2⟩ := ih _ (by simpa [streamingAtTicks] using h)
      obtain ⟨f1, f2⟩ := step_stream_frame (.cameraSwitch state) s (by simp)
      rw [h1, h2, f1, f2]; simp [tickSamples]
    | backgroundMouseDrag =>
      obtain ⟨h1, h2⟩ := ih _ (by simpa [streamingAtTicks] using h)
      obtain ⟨f1, f2⟩ := step_stream_frame .backgroundMouseDrag s (by simp)
      rw [h1, h2, f1, f2]; simp [tickSamples]
    | fetched v =>
      obtain ⟨h1, h2⟩ := ih _ (by simpa [streamingAtTicks] using h)
      obtain ⟨f1, f2⟩ := step_stream_frame (.fetched v) s (by simp)
      rw [h1, h2, f1, f2]; simp [tickSamples]
    | refresh =>
      obtain ⟨h1, h2⟩ := ih _ (by simpa [streamingAtTicks] using h)
      obtain ⟨f1, f2⟩ := step_stream_frame .refresh s (by simp)
      rw [h1, h2, f1, f2]; simp [tickSamples]

/-- With the streaming checkbox off at every tick of a run, the batches appended to the
`addRow` log are the first `50 - samplesAmount` batches of the run, in arrival order. -/
theorem run_streaming_off (evs : List Event) :
    ∀ s : AppState, streamingAtTicks false evs s = true →
      (run evs s).addRowCalls =
        s.addRowCalls ++ ((tickSamples evs).take (50 - s.samplesAmount)).map addRowOf ∧
      (run evs s).samplesAmount =
        s.samplesAmount + min (tickSamples evs).length (50 - s.samplesAmount) := by
  induction evs with
  | nil => intro s _; simp [run_nil, tickSamples]
  | cons e evs ih =>
    intro s h
    rw [run_cons]
    cases e with
    | tick raw =>
      simp only [streamingAtTicks, Bool.and_eq_true, beq_iff_eq] at h
      obtain ⟨h1, h2⟩ := ih _ h.2
      simp only [step] at h1 h2 ⊢
      rcases Nat.lt_or_ge s.samplesAmount 50 with hc | hc
      · obtain ⟨t1, t2⟩ := (streamTick_off raw s h.1).1 hc
        have e50 : 50 - s.samplesAmount = (50 - (s.samplesAmount + 1)) + 1 := by omega
        rw [h1, h2, t1, t2, e50]
        simp [tickSamples]; omega
      · have t := (streamTick_off raw s h.1).2 hc
        have e50 : 50 - s.samplesAmount = 0 := by omega
        rw [t] at h1 h2 ⊢
        rw [h1, h2, e50]
        simp [tickSamples]
    | streamingSwitch state =>
      obtain ⟨h1, h2⟩ := ih _ (by simpa [streamingAtTicks] using h)
      obtain ⟨f1, f2⟩ := step_stream_frame (.streamingSwitch state) s (by simp)
      rw [h1, h2, f1, f2]; simp [tickSamples]
    | cameraSwitch state =>
      obtain ⟨h1, h2⟩ := ih _ (by simpa [streamingAtTicks] using h)
      obtain ⟨f1, f2⟩ := step_stream_frame (.cameraSwitch state) s (by simp)
      rw [h1, h2, f1, f2]; simp [tickSamples]
    | backgroundMouseDrag =>
      obtain ⟨h1, h2⟩ := ih _ (by simpa [streamingAtTicks] using h)
      obtain ⟨f1, f2⟩ := step_stream_frame .backgroundMouseDrag s (by simp)
      rw [h1, h2, f1, f2]; simp [tickSamples]
    | fetched v =>
      obtain ⟨h1, h2⟩ := ih _ (by simpa [streamingAtTicks] using h)
      obtain ⟨f1, f2⟩ := step_stream_frame (.fetched v) s (by simp)
      rw [h1, h2, f1, f2]; simp [tickSamples]
    | refresh =>
      obtain ⟨h1, h2⟩ := ih _ (by simpa [streamingAtTicks] using h)
      obtain ⟨f1, f2⟩ := step_stream_frame .refresh s (by simp)
      rw [h1, h2, f1, f2]; simp [tickSamples]

/-- Every callback keeps the counter equal to the number of `addRow` calls issued, and
never lowers it. -/
theorem step_counter (e : Event) (s : AppState)
    (h : s.samplesAmount = s.addRowCalls.length) :
    (step e s).samplesAmount = (step e s).addRowCalls.length ∧
    s.samplesAmount ≤ (step e s).samplesAmount := by
  by_cases ht : ∃ raw, e = .tick raw
  · obtain ⟨raw, rfl⟩ := ht
    simp only [step, streamTick]
    by_cases ha : s.toggleStreamingCheckBox.getOn = true ∨ s.samplesAmount < 50
    · rw [forEachHandler_accept _ _ ha]; simp [h]
    · rw [forEachHandler_reject _ _ ha]; simp [h]
  · obtain ⟨f1, f2⟩ := step_stream_frame e s (fun raw hr => ht ⟨raw, hr⟩)
    rw [f1, f2]; exact ⟨h, le_refl _⟩

/-- Along a run the counter stays equal to the number of `addRow` calls and never drops. -/
theorem run_counter (evs : List Event) :
    ∀ s : AppState, s.samplesAmount = s.addRowCalls.length →
      (run evs s).samplesAmount = (run evs s).addRowCalls.length ∧
      s.samplesAmount ≤ (run evs s).samplesAmount := by
  induction evs with
  | nil => intro s h; exact ⟨h, le_refl _⟩
  | cons e evs ih =>
    intro s h
    rw [run_cons]
    obtain ⟨h1, h2⟩ := step_counter e s h
    obtain ⟨h3, h4⟩ := ih _ h1
    exact ⟨h3, le_trans h2 h4⟩

/-- C3. In every run that starts with `samplesAmount = 0` and has the streaming checkbox
off at each of its `n` stream ticks, the batches forwarded to `addRow` are exactly the
first `min n 50` batches of the run, in arrival order: the batches of ticks 1..50 are
forwarded, the 51st and every later one is dropped, and the number forwarded never
exceeds 50. -/
theorem streaming_off_forwards_first_50 (evs : List Event) (s : AppState)
    (h0 : s.samplesAmount = 0) (hoff : streamingAtTicks false evs s = true) :
    (run evs s).addRowCalls = s.addRowCalls ++ ((tickSamples evs).take 50).map addRowOf ∧
    (run evs s).addRowCalls.length = s.addRowCalls.length + min (tickSamples evs).length 50 ∧
    (run evs s).addRowCalls.length ≤ s.addRowCalls.length + 50 ∧
    (run evs s).samplesAmount = min (tickSamples evs).length 50 := by
  obtain ⟨h1, h2⟩ := run_streaming_off evs s hoff
  rw [h0] at h1 h2
  simp only [Nat.sub_zero, Nat.zero_add] at h1 h2
  refine ⟨h1, ?_, ?_, h2⟩
  · rw [h1]; simp [Nat.min_comm]
  · rw [h1]; simp

/-- C4. In every run that has the streaming checkbox on at each of its `n` stream ticks,
whatever the counter at the start and however large `n`, every one of the `n` batches
is forwarded to `addRow`, one call per tick, in arrival order. -/
theorem streaming_on_forwards_all (evs : List Event) (s : AppState)
    (hon : streamingAtTicks true evs s = true) :
    (run evs s).addRowCalls = s.addRowCalls ++ (tickSamples evs).map addRowOf ∧
    (run evs s).addRowCalls.length = s.addRowCalls.length + (tickSamples evs).length ∧
    (run evs s).samplesAmount = s.samplesAmount + (tickSamples evs).length := by
  obtain ⟨h1, h2⟩ := run_streaming_on evs s hon
  refine ⟨h1, ?_, h2⟩
  rw [h1]; simp

/-- C10. In every state reached from the initial state by any sequence of callbacks, the
counter `samplesAmount` equals the number of `addRow` calls issued so far; no further
sequence of callbacks lowers it; and once it is 50 or more, a tick arriving while the
streaming checkbox is off, now or after any further callbacks, is dropped. -/
theorem samplesAmount_counts_addRow (evs more : List Event) (raw : List ℚ) :
    (run evs init).samplesAmount = (run evs init).addRowCalls.length ∧
    (run evs init).samplesAmount ≤ (run more (run evs init)).samplesAmount ∧
    (50 ≤ (run evs init).samplesAmount →
      (run more (run evs init)).toggleStreamingCheckBox.getOn = false →
      step (.tick raw) (run more (run evs init)) = run more (run evs init)) := by
  have hinit : init.samplesAmount = init.addRowCalls.length := rfl
  obtain ⟨h1, _⟩ := run_counter evs init hinit
  obtain ⟨_, h3⟩ := run_counter more (run evs init) h1
  refine ⟨h1, h3, fun h50 hoff => ?_⟩
  exact (streamTick_off raw _ hoff).2 (le_trans h50 h3)

/-- C3 on a run of 51 ticks with streaming off: 50 batches reach `addRow`. -/
theorem streaming_off_forwards_first_50_witness :
    (tickSamples offRun).length = 51 ∧
    (run offRun init).addRowCalls.length = init.addRowCalls.length + min 51 50 ∧
    (run offRun init).samplesAmount = 50 :=
  have h := streaming_off_forwards_first_50 offRun init rfl (by decide)
  ⟨by decide, h.2.1, h.2.2.2⟩

/-- C4 on a run of 60 ticks with streaming on: all 60 batches reach `addRow`. -/
theorem streaming_on_forwards_all_witness :
    (tickSamples onRun).length = 60 ∧
    (run onRun init).addRowCalls.length = init.addRowCalls.length + 60 ∧
    (run onRun init).samplesAmount = 60 :=
  have h := streaming_on_forwards_all onRun init (by decide)
  ⟨by decide, h.2.1, h.2.2⟩

/-- C10 after 60 accepted batches: once the user has switched streaming off, the next
batch is dropped. -/
theorem samplesAmount_counts_addRow_witness :
    step (.tick [1]) (run [.streamingSwitch false] (run onRun init)) =
      run [.streamingSwitch false] (run onRun init) :=
  (samplesAmount_counts_addRow onRun [.streamingSwitch false] [1]).2.2
    (by set_option maxRecDepth 100000 in decide) (by decide)

/-! ## Camera replay loop -/

/-- On a whole-number counter and a non-empty frame list the index expression is the
natural-number remainder. -/
theorem frameIndex_natCast (frames : List Frame) (m : Nat) (hN : 0 < frames.length) :
    frameIndex frames (m : ℚ) = some ((m % frames.length : Nat) : ℤ) := by
  unfold frameIndex jsRem mathFloor
  rw [Int.floor_natCast, if_neg (Nat.pos_iff_ne_zero.mp hN), Int.ofNat_tmod]

/-- Reading the array at a natural-number index. -/
theorem frameAt_natCast (frames : List Frame) (j : Nat) :
    frameAt frames (some ((j : Nat) : ℤ)) = frames[j]? := rfl

/-- A display refresh with the camera checkbox off changes nothing. -/
theorem animationFrame_off (s : AppState)
    (hoff : s.cameraAnimationEnabledCheckbox.getOn = false) : animationFrame s = s := by
  cases s with
  | mk tcb ccb n rows loop cams =>
    cases loop with
    | running data frame =>
      simp only at hoff
      simp [animationFrame, nextFrame, hoff]
    | pending => rfl
    | noData => rfl
    | failed err => rfl

/-- A display refresh with the camera checkbox on, a whole-number counter `m` and a
non-empty frame list: the frame at `m % N` is applied and the counter becomes `m + 4`. -/
theorem animationFrame_on (s : AppState) (data : CameraAnimationData) (frames : List Frame)
    (m : Nat) (hdata : data.frames = some frames) (hN : 0 < frames.length)
    (hloop : s.cameraLoop = .running data (m : ℚ))
    (hon : s.cameraAnimationEnabledCheckbox.getOn = true) :
    ∃ f : Frame, frames[m % frames.length]? = some f ∧
      animationFrame s =
        { s with
          setCameraLocationCalls := s.setCameraLocationCalls ++ [f.cameraLocation]
          cameraLoop := .running data ((m + 4 : Nat) : ℚ) } := by
  have hlt : m % frames.length < frames.length := Nat.mod_lt _ hN
  refine ⟨frames[m % frames.length], List.getElem?_eq_getElem hlt, ?_⟩
  have hat : frameAt frames (frameIndex frames (m : ℚ)) = some frames[m % frames.length] := by
    rw [frameIndex_natCast frames m hN, frameAt_natCast, List.getElem?_eq_getElem hlt]
  unfold animationFrame
  rw [hloop]
  simp only [nextFrame, hon, hdata, hat, if_true]
  push_cast
  rfl

/-- Only the resolution of the fetch and the display refresh act on the camera loop and
on the log of `setCameraLocation` calls. -/
theorem step_camera_frame (e : Event) (s : AppState)
    (h1 : e ≠ .refresh) (h2 : ∀ v, e ≠ .fetched v) :
    (step e s).cameraLoop = s.cameraLoop ∧
    (step e s).setCameraLocationCalls = s.setCameraLocationCalls := by
  cases e with
  | tick raw => exact ⟨(streamTick_frame raw s).2.2.1, (streamTick_frame raw s).2.2.2⟩
  | streamingSwitch state => exact ⟨rfl, rfl⟩
  | cameraSwitch state => exact ⟨rfl, rfl⟩
  | backgroundMouseDrag => exact ⟨rfl, rfl⟩
  | fetched v => exact absurd rfl (h2 v)
  | refresh => exact absurd rfl h1

/-- Once the fetch has resolved, a further resolution does nothing. -/
theorem fetchResolved_done (v : Option CameraAnimationData) (s : AppState)
    (h : s.cameraLoop ≠ .pending) : fetchResolved v s = s := by
  unfold fetchResolved
  cases hl : s.cameraLoop with
  | pending => exact absurd hl h
  | noData => rfl
  | running data frame => rfl
  | failed err => rfl

/-- With the camera checkbox on at every refresh of a run, a non-empty frame list and a
counter that starts at `4 * k0`, the counter after the run is `4 * (k0 + refreshes)`. -/
theorem run_camera_on (data : CameraAnimationData) (frames : List Frame)
    (hdata : data.frames = some frames) (hN : 0 < frames.length) (evs : List Event) :
    ∀ (s : AppState) (k0 : Nat), s.cameraLoop = .running data ((4 * k0 : Nat) : ℚ) →
      cameraOnAtRefreshes evs s = true →
      (run evs s).cameraLoop = .running data ((4 * (k0 + refreshCount evs) : Nat) : ℚ) := by
  induction evs with
  | nil => intro s k0 hl _; simpa [run_nil, refreshCount] using hl
  | cons e evs ih =>
    intro s k0 hl h
    rw [run_cons]
    cases e with
    | refresh =>
      simp only [cameraOnAtRefreshes, Bool.and_eq_true] at h
      obtain ⟨f, _, hstep⟩ := animationFrame_on s data frames (4 * k0) hdata hN hl h.1
      have hl1 : (step .refresh s).cameraLoop = .running data ((4 * (k0 + 1) : Nat) : ℚ) := by
        simp only [step]; rw [hstep]
        show CameraLoop.running data ((4 * k0 + 4 : Nat) : ℚ) = _
        congr 2
      have := ih _ (k0 + 1) hl1 h.2
      rw [this]; simp only [refreshCount]
      congr 2; omega
    | fetched v =>
      have hs : step (.fetched v) s = s := fetchResolved_done v s (by rw [hl]; simp)
      rw [hs]
      simpa [refreshCount] using ih s k0 hl (by simpa [cameraOnAtRefreshes, hs] using h)
    | tick raw =>
      have hf := (step_camera_frame (.tick raw) s (by simp) (by simp)).1
      simpa [refreshCount] using ih _ k0 (hf.trans hl) (by simpa [cameraOnAtRefreshes] using h)
    | streamingSwitch state =>
      have hf := (step_camera_frame (.streamingSwitch state) s (by simp) (by simp)).1
      simpa [refreshCount] using ih _ k0 (hf.trans hl) (by simpa [cameraOnAtRefreshes] using h)
    | cameraSwitch state =>
      have hf := (step_camera_frame (.cameraSwitch state) s (by simp) (by simp)).1
      simpa [refreshCount] using ih _ k0 (hf.trans hl) (by simpa [cameraOnAtRefreshes] using h)
    | backgroundMouseDrag =>
      have hf := (step_camera_frame .backgroundMouseDrag s (by simp) (by simp)).1
      simpa [refreshCount] using ih _ k0 (hf.trans hl) (by simpa [cameraOnAtRefreshes] using h)

/-- The camera checkbox is on at every refresh of a run followed by one more refresh
exactly when it is on at every refresh of the run and in the state the run ends in. -/
theorem cameraOnAtRefreshes_snoc (evs : List Event) :
    ∀ s : AppState, cameraOnAtRefreshes (evs ++ [.refresh]) s =
      (cameraOnAtRefreshes evs s && (run evs s).cameraAnimationEnabledCheckbox.getOn) := by
  induction evs with
  | nil => intro s; simp [cameraOnAtRefreshes, run_nil]
  | cons e evs ih =>
    intro s
    cases e <;> simp [cameraOnAtRefreshes, run_cons, ih, Bool.and_assoc]

/-- A run made of display refreshes only keeps the camera checkbox as it was, so the
checkbox is on at each refresh when it is on at the start. -/
theorem cameraOnAtRefreshes_replicate (n : Nat) :
    ∀ s : AppState, s.cameraAnimationEnabledCheckbox.getOn = true →
      cameraOnAtRefreshes (List.replicate n .refresh) s = true := by
  induction n with
  | zero => intro s _; rfl
  | succ n ih =>
    intro s h
    simp only [List.replicate_succ, cameraOnAtRefreshes, Bool.and_eq_true]
    refine ⟨h, ih _ ?_⟩
    simp only [step]
    rw [(animationFrame_frame s).2.1]; exact h

/-- C5. Let the loaded frame list have length `N > 0`, and let a run go from the state
in which the loop was started (`frame = 0`) through `k` display refreshes and then one
more, with the camera checkbox on at each of these `k + 1` refreshes. Then the counter
before refresh number `k` is `4k`, `Math.floor` leaves it as it is, the index used is
`floor(4k) mod N = (4k) mod N`, it lies in `0..N-1`, the frame lookup finds a frame, its
camera location is applied, and the counter after the refresh is `4(k+1)`. -/
theorem camera_frame_index (data : CameraAnimationData) (frames : List Frame)
    (evs : List Event) (s : AppState)
    (hdata : data.frames = some frames) (hN : 0 < frames.length)
    (hstart : s.cameraLoop = .running data 0)
    (hon : cameraOnAtRefreshes (evs ++ [.refresh]) s = true) :
    (run evs s).cameraLoop = .running data (4 * (refreshCount evs : ℚ)) ∧
    mathFloor (4 * (refreshCount evs : ℚ)) = ((4 * refreshCount evs : Nat) : ℤ) ∧
    frameIndex frames (4 * (refreshCount evs : ℚ)) =
      some (((4 * refreshCount evs) % frames.length : Nat) : ℤ) ∧
    (4 * refreshCount evs) % frames.length < frames.length ∧
    ∃ f : Frame, frames[(4 * refreshCount evs) % frames.length]? = some f ∧
      step .refresh (run evs s) =
        { run evs s with
          setCameraLocationCalls := (run evs s).setCameraLocationCalls ++ [f.cameraLocation]
          cameraLoop := .running data (4 * ((refreshCount evs : ℚ) + 1)) } := by
  rw [cameraOnAtRefreshes_snoc, Bool.and_eq_true] at hon
  have hcast : (4 * (refreshCount evs : ℚ)) = ((4 * refreshCount evs : Nat) : ℚ) := by
    push_cast; rfl
  have hstart1 : s.cameraLoop = .running data ((4 * 0 : Nat) : ℚ) := by
    rw [hstart]; simp
  have hloop := run_camera_on data frames hdata hN evs s 0 hstart1 hon.1
  rw [Nat.zero_add] at hloop
  obtain ⟨f, hf, hstep⟩ :=
    animationFrame_on (run evs s) data frames (4 * refreshCount evs) hdata hN hloop hon.2
  refine ⟨by rw [hloop, hcast], ?_, ?_, Nat.mod_lt _ hN, f, hf, ?_⟩
  · rw [hcast]; exact Int.floor_natCast _
  · rw [hcast]; exact frameIndex_natCast frames _ hN
  · simp only [step]
    rw [hstep]
    have : ((4 * refreshCount evs + 4 : Nat) : ℚ) = 4 * ((refreshCount evs : ℚ) + 1) := by
      push_cast; ring
    rw [this]

/-- C5 with three frames, at refresh number 2: the index is `8 mod 3 = 2`, and the
counter goes from 8 to 12. -/
theorem camera_frame_index_witness :
    (run [.refresh, .refresh] (run [.fetched (some threeFrames)] init)).cameraLoop =
      .running threeFrames (4 * ((2 : Nat) : ℚ)) ∧
    frameIndex
      [ { cameraLocation := { x := 1, y := 0, z := 0 } },
        { cameraLocation := { x := 0, y := 1, z := 0 } },
        { cameraLocation := { x := 0, y := 0, z := 1 } } ] (4 * ((2 : Nat) : ℚ)) =
      some ((8 % 3 : Nat) : ℤ) :=
  have h := camera_frame_index threeFrames _ [.refresh, .refresh]
    (run [.fetched (some threeFrames)] init) rfl (by decide) rfl
    (cameraOnAtRefreshes_replicate 3 _ rfl)
  ⟨h.1, h.2.2.1⟩

/-- C6. The guard of the camera block lets a non-null object with an empty or a missing
`frames` list through: the loop is started, not put in the "no data" state; with the
checkbox on, the first display refresh evaluates the index expression against the empty
list (it yields no index), the frame lookup fails, no camera location is applied and the
loop stops on the fault. Only a value for which `! cameraAnimationData` holds is treated
as "no data". -/
theorem empty_frames_fault :
    (run [.fetched none] init).cameraLoop = .noData ∧
    (run [.fetched (some emptyFrames)] init).cameraLoop = .running emptyFrames 0 ∧
    frameIndex [] 0 = none ∧
    nextFrame emptyFrames 0 (run [.fetched (some emptyFrames)] init) =
      .error .destructureUndefined ∧
    (run [.fetched (some emptyFrames), .refresh] init).cameraLoop =
      .failed .destructureUndefined ∧
    (run [.fetched (some emptyFrames), .refresh] init).setCameraLocationCalls = [] ∧
    nextFrame missingFrames 0 (run [.fetched (some missingFrames)] init) =
      .error .lengthOfUndefined ∧
    (run [.fetched (some missingFrames), .refresh] init).cameraLoop =
      .failed .lengthOfUndefined :=
  ⟨rfl, rfl, rfl, rfl, rfl, rfl, rfl, rfl⟩

/-- C8, as stated, fails at the initial state: the camera checkbox is on with the label
'Disable camera animation', and the background-drag handler leaves it off with the label
'Enable camera animation', after one `setOn( false )` call. -/
theorem drag_changes_checkbox :
    init.cameraAnimationEnabledCheckbox.getOn = true ∧
    init.cameraAnimationEnabledCheckbox.text = "Disable camera animation" ∧
    (onBackgroundMouseDrag init).cameraAnimationEnabledCheckbox.getOn = false ∧
    (onBackgroundMouseDrag init).cameraAnimationEnabledCheckbox.text =
      "Enable camera animation" ∧
    ¬ ((onBackgroundMouseDrag init).cameraAnimationEnabledCheckbox.getOn =
        init.cameraAnimationEnabledCheckbox.getOn ∧
       (onBackgroundMouseDrag init).cameraAnimationEnabledCheckbox.text =
        init.cameraAnimationEnabledCheckbox.text) := by
  refine ⟨rfl, rfl, rfl, rfl, ?_⟩
  decide

/-- A callback other than switching the camera checkbox on, arriving while that checkbox
is off, leaves it off, applies no camera location, and leaves a started loop and its
frame counter as they are. -/
theorem step_camera_off (e : Event) (s : AppState)
    (hoff : s.cameraAnimationEnabledCheckbox.getOn = false)
    (he : switchesCameraOn e = false) :
    (step e s).cameraAnimationEnabledCheckbox.getOn = false ∧
    (step e s).setCameraLocationCalls = s.setCameraLocationCalls ∧
    (∀ data frame, s.cameraLoop = .running data frame →
      (step e s).cameraLoop = .running data frame) := by
  cases e with
  | tick raw =>
    obtain ⟨_, h2, h3, h4⟩ := streamTick_frame raw s
    simp only [step]
    exact ⟨by rw [h2]; exact hoff, h4, fun _ _ h => by rw [h3]; exact h⟩
  | streamingSwitch state => exact ⟨hoff, rfl, fun _ _ h => h⟩
  | cameraSwitch state =>
    cases state with
    | true => simp [switchesCameraOn] at he
    | false => exact ⟨(handleToggled_sync _ _ false _).1, rfl, fun _ _ h => h⟩
  | backgroundMouseDrag => exact ⟨(handleToggled_sync _ _ false _).1, rfl, fun _ _ h => h⟩
  | fetched v =>
    obtain ⟨_, h2, _, _, h5⟩ := fetchResolved_frame v s
    simp only [step]
    refine ⟨by rw [h2]; exact hoff, h5, fun data frame h => ?_⟩
    rw [fetchResolved_done v s (by rw [h]; simp)]; exact h
  | refresh =>
    simp only [step]
    rw [animationFrame_off s hoff]
    exact ⟨hoff, rfl, fun _ _ h => h⟩

/-- Along a run without a callback that switches the camera checkbox on, started with
that checkbox off: the checkbox stays off, no camera location is applied, and a started
loop keeps its frame counter. -/
theorem run_camera_off (evs : List Event) :
    ∀ s : AppState, s.cameraAnimationEnabledCheckbox.getOn = false →
      (∀ e ∈ evs, switchesCameraOn e = false) →
      (run evs s).cameraAnimationEnabledCheckbox.getOn = false ∧
      (run evs s).setCameraLocationCalls = s.setCameraLocationCalls ∧
      (∀ data frame, s.cameraLoop = .running data frame →
        (run evs s).cameraLoop = .running data frame) := by
  induction evs with
  | nil => intro s hoff _; exact ⟨hoff, rfl, fun _ _ h => h⟩
  | cons e evs ih =>
    intro s hoff hev
    rw [run_cons]
    obtain ⟨h1, h2, h3⟩ := step_camera_off e s hoff (hev e (List.mem_cons_self _ _))
    obtain ⟨g1, g2, g3⟩ := ih _ h1 (fun e1 he1 => hev e1 (List.mem_cons_of_mem _ he1))
    exact ⟨g1, g2.trans h2, fun data frame h => g3 data frame (h3 data frame h)⟩

/-- C8, amended. From every state in which the camera checkbox is on, the
background-drag handler switches the checkbox off by one `setOn( false )` call and sets
its label to 'Enable camera animation'; after it, along every run of callbacks in which
the checkbox is not switched on again, the checkbox stays off, no display refresh
applies a camera location, and the frame counter of a started loop is not advanced. -/
theorem drag_halts_camera (s : AppState) (evs : List Event)
    (hon : s.cameraAnimationEnabledCheckbox.getOn = true)
    (hev : ∀ e ∈ evs, switchesCameraOn e = false) :
    (onBackgroundMouseDrag s).cameraAnimationEnabledCheckbox.getOn = false ∧
    (onBackgroundMouseDrag s).cameraAnimationEnabledCheckbox.text = "Enable camera animation" ∧
    (onBackgroundMouseDrag s).cameraAnimationEnabledCheckbox.setOnCalls =
      s.cameraAnimationEnabledCheckbox.setOnCalls ++ [false] ∧
    (run evs (onBackgroundMouseDrag s)).cameraAnimationEnabledCheckbox.getOn = false ∧
    (run evs (onBackgroundMouseDrag s)).setCameraLocationCalls = s.setCameraLocationCalls ∧
    (∀ data frame, s.cameraLoop = .running data frame →
      (run evs (onBackgroundMouseDrag s)).cameraLoop = .running data frame) := by
  obtain ⟨h1, h2, h3, _⟩ := handleToggled_sync "Disable camera animation"
    "Enable camera animation" false s.cameraAnimationEnabledCheckbox
  have hne : ¬ s.cameraAnimationEnabledCheckbox.isOn = false := by
    have : s.cameraAnimationEnabledCheckbox.isOn = true := hon
    rw [this]; decide
  rw [if_neg hne] at h3
  obtain ⟨g1, g2, g3⟩ := run_camera_off evs (onBackgroundMouseDrag s) h1 hev
  exact ⟨h1, h2, h3, g1, g2, fun data frame h => g3 data frame h⟩

/-- C8, amended, on a loop that has replayed two of three frames: after the drag, three
more refreshes and a stream tick apply nothing and leave the counter where it was. -/
theorem drag_halts_camera_witness :
    (run [.refresh, .tick [1], .refresh, .refresh]
        (onBackgroundMouseDrag
          (run [.fetched (some threeFrames), .refresh, .refresh] init))).setCameraLocationCalls =
      (run [.fetched (some threeFrames), .refresh, .refresh] init).setCameraLocationCalls ∧
    (onBackgroundMouseDrag
        (run [.fetched (some threeFrames), .refresh, .refresh] init)
      ).cameraAnimationEnabledCheckbox.text = "Enable camera animation" :=
  have h := drag_halts_camera (run [.fetched (some threeFrames), .refresh, .refresh] init)
    [.refresh, .tick [1], .refresh, .refresh]
    (by
      show (animationFrame (animationFrame (fetchResolved (some threeFrames) init))
        ).cameraAnimationEnabledCheckbox.getOn = true
      rw [(animationFrame_frame _).2.1, (animationFrame_frame _).2.1]; rfl)
    (by decide)
  ⟨h.2.2.2.2.1, h.2.1⟩

end Spectrogram
